import Mathlib

/-!
Verification development for the `proteomics_explorer` package
(`proteomics_explorer/explorer.py`).

The Python strings that the code manipulates (file names, patterns,
keywords) are embedded as lists of characters (`PyStr`); Python's
`str.lower`, `str.endswith` and the substring operator `in` become
`pyLower`, `pyEndsWith` and `pyContains`.  The selection logic of
`ProteomicsExplorer.load`, the format dispatch of `_read_file`, the
cache-aware `_download_file`, `clear_cache` and `get_info` are embedded
as pure functions; remote responses, file contents and the cache
directory become explicit values.
-/

/-- Embedding of a Python string as its list of characters. -/
abbrev PyStr := List Char

/-- Python `str.lower()` (character-wise lowercasing). -/
def pyLower (s : PyStr) : PyStr := s.map Char.toLower

/-- Python `s.endswith(suffix)` for a single suffix. -/
def pyEndsWith (s suffix : PyStr) : Bool := List.isSuffixOf suffix s

/-- Python `needle in hay` (substring containment). -/
def pyContains (hay needle : PyStr) : Bool := decide (needle <:+: hay)

/-- Decidable equality on `Except`, so that concrete runs of the fallible
operations can be checked by `decide`. -/
instance {ε α : Type} [DecidableEq ε] [DecidableEq α] : DecidableEq (Except ε α)
  | .error e, .error f =>
    if h : e = f then .isTrue (by rw [h]) else .isFalse (fun k => h (Except.error.inj k))
  | .error _, .ok _ => .isFalse (fun k => Except.noConfusion k)
  | .ok _, .error _ => .isFalse (fun k => Except.noConfusion k)
  | .ok x, .ok y =>
    if h : x = y then .isTrue (by rw [h]) else .isFalse (fun k => h (Except.ok.inj k))

namespace ProteomicsExplorer

/-- One entry of the PRIDE file listing, as consumed by `load`:
`fileName`, `fileSizeBytes` and `downloadLink` (the `fileType` field is
never used by the selection logic). -/
structure FileDesc where
  fileName : PyStr
  fileSizeBytes : Nat
  downloadLink : PyStr
deriving DecidableEq, Repr

/-- The tuple `table_exts` of `load` (line 153):
`('.txt', '.csv', '.tsv', '.xlsx', '.txt.gz', '.tsv.gz', '.csv.gz')`. -/
def table_exts : List PyStr :=
  [".txt".toList, ".csv".toList, ".tsv".toList, ".xlsx".toList,
   ".txt.gz".toList, ".tsv.gz".toList, ".csv.gz".toList]

/-- The eligibility test of the candidate filter in `load` (lines 154-158):
the lowercased name ends with one of `table_exts` and the size strictly
exceeds 50000 bytes. -/
def isCandidate (f : FileDesc) : Bool :=
  table_exts.any (fun e => pyEndsWith (pyLower f.fileName) e)
    && decide (f.fileSizeBytes > 50000)

/-- The list `priority_keywords` of `load` (lines 171-172). -/
def priority_keywords : List PyStr :=
  ["protein".toList, "abundance".toList, "intensity".toList, "quant".toList,
   "report".toList, "result".toList, "maxquant".toList, "diann".toList]

/-- The test `kw in f['fileName'].lower()` — the keyword test of the priority loop. -/
def containsKw (f : FileDesc) (kw : PyStr) : Bool :=
  pyContains (pyLower f.fileName) kw

/-- The nested priority loop of `load` (lines 174-181): for each keyword in
order, scan the candidates in listing order and return the first whose
lowercased name contains the keyword; `none` when no keyword matches. -/
def kwPass : List PyStr → List FileDesc → Option FileDesc
  | [], _ => none
  | kw :: rest, cands =>
    match cands.find? (fun f => containsKw f kw) with
    | some f => some f
    | none => kwPass rest cands

/-- Python `max(candidates, key=lambda x: x['fileSizeBytes'])` (line 184):
scans left to right keeping the current maximum, replacing it only on a
strictly larger size — so ties go to the earliest element. -/
def pyMax (c : FileDesc) : List FileDesc → FileDesc
  | [] => c
  | f :: fs => pyMax (if f.fileSizeBytes > c.fileSizeBytes then f else c) fs

/-- The pattern-narrowing step of `load` (lines 163-169): a falsy
(absent or empty) pattern leaves the candidates unchanged; otherwise
candidates whose lowercased name contains the lowercased pattern are
kept, unless that narrowing is empty, in which case the full candidate
set is kept. -/
def applyPattern (cands : List FileDesc) : Option PyStr → List FileDesc
  | none => cands
  | some p =>
    if p.isEmpty then cands
    else
      let pattern_match := cands.filter (fun f => pyContains (pyLower f.fileName) (pyLower p))
      if pattern_match.isEmpty then cands else pattern_match

/-- Errors of the loading pipeline, one constructor per Python exception
class raised by the code: `projectNotFound` is the `ValueError` raised on
a non-200 listing response (and by `get_info` on an unknown identifier),
`noCandidate` is the `FileNotFoundError` raised when no file passes the
candidate filter. -/
inductive ExplorerError where
  | projectNotFound
  | noCandidate
deriving DecidableEq, Repr

/-- Keyword pass followed by the largest-size fallback of `load`
(lines 174-184), applied to the (possibly pattern-narrowed) candidate
list.  The empty case cannot arise from `selectFile`, which guards on a
non-empty candidate filter; it mirrors Python's `max` being unreachable
there. -/
def selectFrom (cands : List FileDesc) : Except ExplorerError FileDesc :=
  match kwPass priority_keywords cands with
  | some f => .ok f
  | none =>
    match cands with
    | [] => .error .noCandidate
    | c :: cs => .ok (pyMax c cs)

/-- The file-selection portion of `load` (lines 153-184): filter to the
eligible candidates, fail with `FileNotFoundError` when none remain,
apply the soft pattern narrowing, then the keyword pass with the
largest-size fallback. -/
def selectFile (files : List FileDesc) (pat : Option PyStr) : Except ExplorerError FileDesc :=
  let candidates := files.filter isCandidate
  if candidates.isEmpty then .error .noCandidate
  else selectFrom (applyPattern candidates pat)

/-- The remote file-listing response as `load` sees it: a non-200 status,
or a JSON array of file descriptors. -/
inductive ListingResponse where
  | notFound
  | ok (files : List FileDesc)
deriving Repr

/-- The listing-and-selection stage of `load` (lines 145-184): a non-200
response raises `ValueError` (project not found); otherwise the listing
goes through the candidate filter and `selectFile`. -/
def loadSelect (resp : ListingResponse) (pat : Option PyStr) : Except ExplorerError FileDesc :=
  match resp with
  | .notFound => .error .projectNotFound
  | .ok files => selectFile files pat

example :
    selectFile
      [⟨"readme.txt".toList, 500, []⟩,
       ⟨"protein_quant.tsv".toList, 200000, []⟩,
       ⟨"raw.zip".toList, 900000, []⟩] none
      = .ok ⟨"protein_quant.tsv".toList, 200000, []⟩ := by
  decide

/-- Python `s[:-n]` for a non-negative `n` (used for `name[:-3]` at
line 106, stripping the `.gz` suffix). -/
def pyDropRight (s : PyStr) (n : Nat) : PyStr := s.take (s.length - n)

/-- Splitting a character list at every occurrence of a separator
character; every input yields at least one (possibly empty) field. -/
def pySplit (sep : Char) : PyStr → List PyStr
  | [] => [[]]
  | c :: rest =>
    if c = sep then [] :: pySplit sep rest
    else
      match pySplit sep rest with
      | [] => [[c]]
      | field :: fields => (c :: field) :: fields

/-- The parsed table: ordered column names and ordered rows of cells. -/
structure Table where
  header : List PyStr
  rows : List (List PyStr)
deriving DecidableEq, Repr

/-- Model of the external pandas delimited-text parser
(`pd.read_csv(..., sep=...)`): the delimiter and the character content
determine the table — first line is the header, remaining lines are the
rows.  Quoting and per-column dtype inference sit below the granularity
of every claim about this code, which only ever compares two parses of
the same content with the same delimiter. -/
def parseDelim (sep : Char) (content : PyStr) : Table :=
  match pySplit (Char.ofNat 10) content with
  | [] => ⟨[], []⟩
  | h :: t => ⟨pySplit sep h, t.map (pySplit sep)⟩

/-- What a local file holds, at the granularity `_read_file` cares
about: plain text, gzip-compressed text (decompressing to the carried
text), or a spreadsheet workbook that `pd.read_excel` parses to the
carried table. -/
inductive FileContent where
  | text (s : PyStr)
  | gzipText (s : PyStr)
  | workbook (t : Table)
deriving DecidableEq, Repr

/-- Failures that can surface from reading a file.  `unsupportedFormat`
is the error the spec's TableReader contract names for an unhandled
format; `badGzip` is the gzip module's failure on a non-gzip file;
`decodeError` covers the pandas parser failing on content of the wrong
kind. -/
inductive ReadError where
  | unsupportedFormat
  | badGzip
  | decodeError
deriving DecidableEq, Repr

/-- Model of `gzip.open(filepath, 'rt').read()` (lines 104-105): yields the
decompressed text of a gzip file and fails on anything else. -/
def gzipRead : FileContent → Except ReadError PyStr
  | .gzipText s => .ok s
  | _ => .error .badGzip

/-- Model of `pd.read_csv(filepath, sep=...)` on a file path: plain text
parses with the given delimiter; a gzip file parses transparently when
the path ends in `.gz` (pandas infers gzip compression from the path
suffix) and fails to decode otherwise; a workbook fails to decode. -/
def pdReadCsvPath (filename : PyStr) (sep : Char) (c : FileContent) : Except ReadError Table :=
  match c with
  | .text s => .ok (parseDelim sep s)
  | .gzipText s =>
    if pyEndsWith (pyLower filename) ".gz".toList then .ok (parseDelim sep s)
    else .error .decodeError
  | .workbook _ => .error .decodeError

/-- Model of `pd.read_excel(filepath)`: parses a workbook, fails on
anything else. -/
def pdReadExcel : FileContent → Except ReadError Table
  | .workbook t => .ok t
  | _ => .error .decodeError

/-- The suffix dispatch of `_read_file` after the `.gz` block
(lines 113-120): `name` is the (possibly `.gz`-stripped) lowercased
name used for the suffix tests, while the reads themselves go through
the original `filepath`.  The final branch is the permissive
tab-separated default. -/
def readTail (filename name : PyStr) (c : FileContent) : Except ReadError Table :=
  if pyEndsWith name ".txt".toList || pyEndsWith name ".tsv".toList then
    pdReadCsvPath filename (Char.ofNat 9) c
  else if pyEndsWith name ".csv".toList then
    pdReadCsvPath filename (Char.ofNat 44) c
  else if pyEndsWith name ".xlsx".toList || pyEndsWith name ".xls".toList then
    pdReadExcel c
  else
    pdReadCsvPath filename (Char.ofNat 9) c

/-- Embedding of `_read_file` (lines 99-120): lowercase the name; on a `.gz` suffix
decompress into an in-memory buffer, strip the suffix, and parse the
buffer as tab- or comma-separated when the remaining suffix is
tab-like or csv — otherwise fall through to the plain-suffix dispatch
with the stripped name (the Python code reassigns `name = name[:-3]`
inside the `.gz` branch and then falls out of it). -/
def read_file (filename : PyStr) (c : FileContent) : Except ReadError Table :=
  if pyEndsWith (pyLower filename) ".gz".toList then
    match gzipRead c with
    | .error e => .error e
    | .ok content =>
      if pyEndsWith (pyDropRight (pyLower filename) 3) ".txt".toList
          || pyEndsWith (pyDropRight (pyLower filename) 3) ".tsv".toList then
        .ok (parseDelim (Char.ofNat 9) content)
      else if pyEndsWith (pyDropRight (pyLower filename) 3) ".csv".toList then
        .ok (parseDelim (Char.ofNat 44) content)
      else
        readTail filename (pyDropRight (pyLower filename) 3) c
  else
    readTail filename (pyLower filename) c

/-- Result of one `_download_file` call: the cache directory afterwards,
the byte content found at the returned path, and how many network
transfers the call performed. -/
structure FetchResult where
  cache : List (PyStr × List Nat)
  content : List Nat
  transfers : Nat
deriving DecidableEq, Repr

/-- Embedding of `_download_file` (lines 80-97).  The flat cache directory is an
association list from file name to byte content; the remote side is a
function from URL to response body (the streamed chunks concatenate to
the body).  A cache-enabled call whose file name is already present
returns the cached bytes with no transfer; otherwise the body is
fetched (one transfer) and, when caching is enabled, stored under the
file name. -/
def download_file (remote : PyStr → List Nat) (use_cache : Bool)
    (cache : List (PyStr × List Nat)) (url filename : PyStr) : FetchResult :=
  if use_cache && (cache.lookup filename).isSome then
    { cache := cache, content := (cache.lookup filename).getD [], transfers := 0 }
  else if use_cache then
    { cache := (filename, remote url) :: cache, content := remote url, transfers := 1 }
  else
    { cache := cache, content := remote url, transfers := 1 }

/-- Embedding of `clear_cache` (lines 217-222).  The cache root is `none` when the
directory does not exist.  The `rmtree` and the `mkdir` both sit inside
`if self.CACHE_DIR.exists():`, so an existing root is replaced by an
empty one and an absent root is left absent. -/
def clear_cache : Option (List (PyStr × List Nat)) → Option (List (PyStr × List Nat))
  | some _ => some []
  | none => none

/-- One catalog row: column name paired with an optional cell value,
`none` standing for a missing (NaN) cell. -/
abbrev Row := List (PyStr × Option PyStr)

/-- Reading one column of a row; a missing column behaves like a
missing value. -/
def rowGet (r : Row) (col : PyStr) : Option PyStr :=
  match r.lookup col with
  | some v => v
  | none => none

/-- The step `row.iloc[0].dropna().to_dict()` (line 78): keep, in column order,
only the columns whose cell is present. -/
def dropna (r : Row) : List (PyStr × PyStr) :=
  r.filterMap (fun kv => kv.2.map (fun v => (kv.1, v)))

/-- Embedding of `get_info` (lines 74-78): select the rows whose `Identifier` column
equals the identifier, raise `ValueError` when none match, and return
the first matching row with its missing cells dropped. -/
def get_info (metadata : List Row) (identifier : PyStr) :
    Except ExplorerError (List (PyStr × PyStr)) :=
  match metadata.find? (fun r => decide (rowGet r "Identifier".toList = some identifier)) with
  | none => .error .projectNotFound
  | some r => .ok (dropna r)

/-! ### Helper lemmas about the selection pipeline -/

theorem kwPass_mem {kws : List PyStr} {cands : List FileDesc} {w : FileDesc}
    (h : kwPass kws cands = some w) : w ∈ cands := by
  induction kws with
  | nil => simp [kwPass] at h
  | cons kw rest ih =>
    unfold kwPass at h
    cases hf : cands.find? (fun f => containsKw f kw) with
    | some f =>
      rw [hf] at h
      cases h
      exact List.mem_of_find?_eq_some hf
    | none =>
      rw [hf] at h
      exact ih h

theorem kwPass_min {kws : List PyStr} {cands : List FileDesc} {f : FileDesc} {i : Nat}
    (hf : f ∈ cands) (hi : i < kws.length)
    (hmatch : containsKw f (kws.get ⟨i, hi⟩) = true) :
    ∃ w, kwPass kws cands = some w ∧ w ∈ cands ∧
      ∃ k, ∃ hk : k < kws.length, k ≤ i ∧ containsKw w (kws.get ⟨k, hk⟩) = true := by
  induction kws generalizing i with
  | nil => exact absurd hi (Nat.not_lt_zero i)
  | cons kw rest ih =>
    cases hfind : (cands.find? (fun g => containsKw g kw)) with
    | some w =>
      refine ⟨w, ?_, List.mem_of_find?_eq_some hfind, 0, Nat.succ_pos _, Nat.zero_le _, ?_⟩
      · unfold kwPass
        rw [hfind]
      · simpa using List.find?_some hfind
    | none =>
      have hnone : ∀ g ∈ cands, containsKw g kw = false := by
        intro g hg
        have := List.find?_eq_none.mp hfind g hg
        simpa using this
      cases i with
      | zero =>
        exact absurd hmatch (by simp [hnone f hf])
      | succ i1 =>
        have hi1 : i1 < rest.length := Nat.lt_of_succ_lt_succ hi
        have hm1 : containsKw f (rest.get ⟨i1, hi1⟩) = true := hmatch
        obtain ⟨w, hw, hwmem, k, hk, hki, hwk⟩ := ih hi1 hm1
        refine ⟨w, ?_, hwmem, k + 1, Nat.succ_lt_succ hk, Nat.succ_le_succ hki, hwk⟩
        unfold kwPass
        rw [hfind]
        exact hw

theorem kwPass_eq_none {kws : List PyStr} {cands : List FileDesc}
    (h : ∀ f ∈ cands, ∀ kw ∈ kws, containsKw f kw = false) :
    kwPass kws cands = none := by
  induction kws with
  | nil => rfl
  | cons kw rest ih =>
    unfold kwPass
    have hfind : cands.find? (fun f => containsKw f kw) = none := by
      rw [List.find?_eq_none]
      intro f hf
      simp [h f hf kw (List.mem_cons_self kw rest)]
    rw [hfind]
    exact ih (fun f hf k hk => h f hf k (List.mem_cons_of_mem kw hk))

theorem pyMax_cons (c f : FileDesc) (fs : List FileDesc) :
    pyMax c (f :: fs) = pyMax (if f.fileSizeBytes > c.fileSizeBytes then f else c) fs := rfl

theorem pyMax_mem (c : FileDesc) (rest : List FileDesc) : pyMax c rest ∈ c :: rest := by
  induction rest generalizing c with
  | nil => simp [pyMax]
  | cons f fs ih =>
    rw [pyMax_cons]
    by_cases hc : f.fileSizeBytes > c.fileSizeBytes
    · rw [if_pos hc]
      exact List.mem_cons_of_mem c (ih f)
    · rw [if_neg hc]
      rcases List.mem_cons.mp (ih c) with h | h
      · simp [h]
      · exact List.mem_cons_of_mem c (List.mem_cons_of_mem f h)

theorem pyMax_ge (c : FileDesc) (rest : List FileDesc) :
    ∀ f ∈ c :: rest, f.fileSizeBytes ≤ (pyMax c rest).fileSizeBytes := by
  induction rest generalizing c with
  | nil =>
    intro f hf
    rcases List.mem_cons.mp hf with h | h
    · simp [pyMax, h]
    · simp at h
  | cons g gs ih =>
    intro f hf
    rw [pyMax_cons]
    by_cases hc : g.fileSizeBytes > c.fileSizeBytes
    · rw [if_pos hc]
      rcases List.mem_cons.mp hf with h | h
      · calc f.fileSizeBytes ≤ g.fileSizeBytes := by rw [h]; exact Nat.le_of_lt hc
          _ ≤ (pyMax g gs).fileSizeBytes := ih g g (List.mem_cons_self g gs)
      · rcases List.mem_cons.mp h with h1 | h1
        · exact ih g f (by simp [h1])
        · exact ih g f (List.mem_cons_of_mem g h1)
    · rw [if_neg hc]
      rcases List.mem_cons.mp hf with h | h
      · exact ih c f (by simp [h])
      · rcases List.mem_cons.mp h with h1 | h1
        · rw [h1]
          calc g.fileSizeBytes ≤ c.fileSizeBytes := Nat.le_of_not_lt hc
            _ ≤ (pyMax c gs).fileSizeBytes := ih c c (List.mem_cons_self c gs)
        · exact ih c f (List.mem_cons_of_mem c h1)

theorem pyMax_first (c : FileDesc) (rest : List FileDesc) :
    ∃ pre post, c :: rest = pre ++ pyMax c rest :: post ∧
      ∀ f ∈ pre, f.fileSizeBytes < (pyMax c rest).fileSizeBytes := by
  induction rest generalizing c with
  | nil => exact ⟨[], [], rfl, by simp⟩
  | cons g gs ih =>
    by_cases hc : g.fileSizeBytes > c.fileSizeBytes
    · have heq : pyMax c (g :: gs) = pyMax g gs := by
        rw [pyMax_cons, if_pos hc]
      obtain ⟨pre, post, hsplit, hlt⟩ := ih g
      refine ⟨c :: pre, post, ?_, ?_⟩
      · rw [heq, List.cons_append, ← hsplit]
      · intro f hf
        rw [heq]
        rcases List.mem_cons.mp hf with h | h
        · calc f.fileSizeBytes = c.fileSizeBytes := by rw [h]
            _ < g.fileSizeBytes := hc
            _ ≤ (pyMax g gs).fileSizeBytes := pyMax_ge g gs g (List.mem_cons_self g gs)
        · exact hlt f h
    · have heq : pyMax c (g :: gs) = pyMax c gs := by
        rw [pyMax_cons, if_neg hc]
      obtain ⟨pre, post, hsplit, hlt⟩ := ih c
      cases pre with
      | nil =>
        simp only [List.nil_append] at hsplit
        have hcm : pyMax c gs = c := (List.cons_eq_cons.mp hsplit).1.symm
        exact ⟨[], g :: gs, by simp [heq, hcm], by simp⟩
      | cons p ps =>
        rw [List.cons_append] at hsplit
        have h1 : c = p := (List.cons_eq_cons.mp hsplit).1
        have h2 : gs = ps ++ pyMax c gs :: post := (List.cons_eq_cons.mp hsplit).2
        refine ⟨c :: g :: ps, post, ?_, ?_⟩
        · rw [heq]
          simp only [List.cons_append]
          rw [← h2]
        · intro f hf
          rw [heq]
          rcases List.mem_cons.mp hf with h | h
          · calc f.fileSizeBytes = p.fileSizeBytes := by rw [h, h1]
              _ < (pyMax c gs).fileSizeBytes := hlt p (List.mem_cons_self p ps)
          · rcases List.mem_cons.mp h with h3 | h3
            · calc f.fileSizeBytes ≤ c.fileSizeBytes := by rw [h3]; exact Nat.le_of_not_lt hc
                _ = p.fileSizeBytes := by rw [h1]
                _ < (pyMax c gs).fileSizeBytes := hlt p (List.mem_cons_self p ps)
            · exact hlt f (List.mem_cons_of_mem p h3)

theorem applyPattern_some (cands : List FileDesc) (p : PyStr) :
    applyPattern cands (some p) =
      if p.isEmpty then cands
      else
        let pattern_match := cands.filter (fun f => pyContains (pyLower f.fileName) (pyLower p))
        if pattern_match.isEmpty then cands else pattern_match := rfl

theorem applyPattern_none (cands : List FileDesc) : applyPattern cands none = cands := rfl

theorem applyPattern_subset {cands : List FileDesc} {pat : Option PyStr} {f : FileDesc}
    (h : f ∈ applyPattern cands pat) : f ∈ cands := by
  cases pat with
  | none => exact h
  | some p =>
    rw [applyPattern_some] at h
    by_cases hp : p.isEmpty
    · rwa [if_pos hp] at h
    · rw [if_neg hp] at h
      by_cases hm : (cands.filter (fun g => pyContains (pyLower g.fileName) (pyLower p))).isEmpty
      · rwa [if_pos hm] at h
      · rw [if_neg hm] at h
        exact List.mem_of_mem_filter h

theorem applyPattern_ne_nil {cands : List FileDesc} {pat : Option PyStr}
    (h : cands ≠ []) : applyPattern cands pat ≠ [] := by
  cases pat with
  | none => exact h
  | some p =>
    rw [applyPattern_some]
    by_cases hp : p.isEmpty
    · rw [if_pos hp]
      exact h
    · rw [if_neg hp]
      by_cases hm : (cands.filter (fun g => pyContains (pyLower g.fileName) (pyLower p))).isEmpty
      · rw [if_pos hm]
        exact h
      · rw [if_neg hm]
        simpa [List.isEmpty_iff] using hm

theorem selectFile_eq {files : List FileDesc} (pat : Option PyStr)
    (h : files.filter isCandidate ≠ []) :
    selectFile files pat = selectFrom (applyPattern (files.filter isCandidate) pat) := by
  unfold selectFile
  rw [if_neg (by simpa [List.isEmpty_iff] using h)]

theorem selectFrom_mem {cands : List FileDesc} (h : cands ≠ []) :
    ∃ w, selectFrom cands = .ok w ∧ w ∈ cands := by
  unfold selectFrom
  cases hkw : kwPass priority_keywords cands with
  | some w => exact ⟨w, rfl, kwPass_mem hkw⟩
  | none =>
    cases cands with
    | nil => exact absurd rfl h
    | cons c cs => exact ⟨pyMax c cs, rfl, pyMax_mem c cs⟩

theorem selectFrom_cons_of_kwPass_none {c : FileDesc} {cs : List FileDesc}
    (h : kwPass priority_keywords (c :: cs) = none) :
    selectFrom (c :: cs) = .ok (pyMax c cs) := by
  unfold selectFrom
  rw [h]

/-! ### Claim theorems -/

/-- C1: Keyword precedence in selection — whenever the (pattern-adjusted)
candidate set contains a file `A` whose name contains the priority
keyword of index `i` and a separate file `B` whose name contains only
the later keyword of index `j` (`i < j`, no keyword earlier than `j`
occurs in `B`), `selectFile` succeeds with a file that is not `B` and
whose name contains a keyword of index at most `i` — the earlier-keyword
file wins regardless of listing order and of the files' sizes. -/
theorem select_keyword_precedence (files : List FileDesc) (pat : Option PyStr)
    (A B : FileDesc) (i j : Nat)
    (hi : i < priority_keywords.length) (hj : j < priority_keywords.length) (hij : i < j)
    (hA : A ∈ applyPattern (files.filter isCandidate) pat)
    (_hB : B ∈ applyPattern (files.filter isCandidate) pat)
    (hAi : containsKw A (priority_keywords.get ⟨i, hi⟩) = true)
    (_hBj : containsKw B (priority_keywords.get ⟨j, hj⟩) = true)
    (hBearly : ∀ k, ∀ hk : k < priority_keywords.length, k < j →
      containsKw B (priority_keywords.get ⟨k, hk⟩) = false) :
    ∃ w, selectFile files pat = .ok w ∧ w ≠ B ∧
      ∃ k, ∃ hk : k < priority_keywords.length, k ≤ i ∧
        containsKw w (priority_keywords.get ⟨k, hk⟩) = true := by
  have hcand : files.filter isCandidate ≠ [] := by
    intro hnil
    rw [hnil] at hA
    exact absurd (applyPattern_subset hA) (List.not_mem_nil A)
  obtain ⟨w, hw, hwmem, k, hk, hki, hwk⟩ := kwPass_min hA hi hAi
  refine ⟨w, ?_, ?_, k, hk, hki, hwk⟩
  · rw [selectFile_eq pat hcand]
    unfold selectFrom
    rw [hw]
  · intro hwB
    rw [hwB] at hwk
    rw [hBearly k hk (Nat.lt_of_le_of_lt hki hij)] at hwk
    exact Bool.false_ne_true hwk

/-- C1 witness: a listing of a large later-keyword file (`quant`) before
a small earlier-keyword file (`abundance`); selection avoids the
`quant` file and picks a file matched by a keyword of index at most 1. -/
theorem select_keyword_precedence_witness :
    ∃ w, selectFile
        [⟨"quant_table.tsv".toList, 999999, []⟩,
         ⟨"abundance_table.tsv".toList, 60000, []⟩] none = .ok w ∧
      w ≠ ⟨"quant_table.tsv".toList, 999999, []⟩ ∧
      ∃ k, ∃ hk : k < priority_keywords.length, k ≤ 1 ∧
        containsKw w (priority_keywords.get ⟨k, hk⟩) = true :=
  select_keyword_precedence
    [⟨"quant_table.tsv".toList, 999999, []⟩, ⟨"abundance_table.tsv".toList, 60000, []⟩]
    none ⟨"abundance_table.tsv".toList, 60000, []⟩ ⟨"quant_table.tsv".toList, 999999, []⟩
    1 3 (by decide) (by decide) (by decide) (by decide) (by decide)
    (by decide) (by decide) (by decide)

/-- C2: Eligibility filter soundness — whenever the listing contains at
least one file with a recognized tabular suffix and size strictly above
50000 bytes, `selectFile` succeeds and returns a file from the listing
that itself passes the eligibility filter (never an ineligible file). -/
theorem select_eligible_sound (files : List FileDesc) (pat : Option PyStr)
    (h : ∃ f ∈ files, isCandidate f = true) :
    ∃ w, selectFile files pat = .ok w ∧ w ∈ files ∧ isCandidate w = true := by
  obtain ⟨f, hf, hfc⟩ := h
  have hcand : files.filter isCandidate ≠ [] := by
    intro hnil
    have hmem : f ∈ files.filter isCandidate := List.mem_filter.mpr ⟨hf, hfc⟩
    rw [hnil] at hmem
    exact absurd hmem (List.not_mem_nil f)
  obtain ⟨w, hw, hwmem⟩ := selectFrom_mem (applyPattern_ne_nil hcand)
  have hmem2 : w ∈ files.filter isCandidate := applyPattern_subset hwmem
  refine ⟨w, ?_, List.mem_of_mem_filter hmem2, (List.mem_filter.mp hmem2).2⟩
  rw [selectFile_eq pat hcand]
  exact hw

/-- C2 witness: a listing with one eligible file among ineligible ones. -/
theorem select_eligible_sound_witness :
    ∃ w, selectFile
        [⟨"raw.zip".toList, 900000, []⟩,
         ⟨"data.csv".toList, 60000, []⟩,
         ⟨"notes.txt".toList, 10, []⟩] none = .ok w ∧
      w ∈ [⟨"raw.zip".toList, 900000, []⟩,
           ⟨"data.csv".toList, 60000, []⟩,
           ⟨"notes.txt".toList, 10, []⟩] ∧ isCandidate w = true :=
  select_eligible_sound
    [⟨"raw.zip".toList, 900000, []⟩, ⟨"data.csv".toList, 60000, []⟩,
     ⟨"notes.txt".toList, 10, []⟩] none (by decide)

/-- C3: Pattern-miss fallback — a non-empty pattern that matches no
eligible candidate is ignored: selection with it returns exactly what
selection with no pattern returns. -/
theorem select_pattern_miss (files : List FileDesc) (p : PyStr) (hne : p ≠ [])
    (hmiss : ∀ f ∈ files.filter isCandidate,
      pyContains (pyLower f.fileName) (pyLower p) = false) :
    selectFile files (some p) = selectFile files none := by
  unfold selectFile
  by_cases hc : (files.filter isCandidate).isEmpty
  · rw [if_pos hc, if_pos hc]
  · rw [if_neg hc, if_neg hc]
    have hnil : (files.filter isCandidate).filter
        (fun f => pyContains (pyLower f.fileName) (pyLower p)) = [] := by
      rw [List.filter_eq_nil_iff]
      intro a ha
      simp [hmiss a ha]
    have happ : applyPattern (files.filter isCandidate) (some p)
        = files.filter isCandidate := by
      rw [applyPattern_some, if_neg (fun hp => hne (List.isEmpty_iff.mp hp))]
      show (if ((files.filter isCandidate).filter _).isEmpty then _ else _) = _
      rw [hnil]
      rfl
    rw [happ, applyPattern_none]

/-- C3 witness: the pattern `zzz` matches no candidate of a two-file
listing, so selection with it coincides with unpatterned selection. -/
theorem select_pattern_miss_witness :
    "zzz".toList ≠ [] ∧
      selectFile
        [⟨"protein_groups.txt".toList, 70000, []⟩,
         ⟨"evidence.txt".toList, 80000, []⟩] (some "zzz".toList)
        = selectFile
            [⟨"protein_groups.txt".toList, 70000, []⟩,
             ⟨"evidence.txt".toList, 80000, []⟩] none :=
  ⟨by decide,
    select_pattern_miss
      [⟨"protein_groups.txt".toList, 70000, []⟩, ⟨"evidence.txt".toList, 80000, []⟩]
      "zzz".toList (by decide) (by decide)⟩

/-- C4: Fallback to the largest file — when no candidate name contains
any priority keyword, unpatterned selection returns an eligible file of
maximal size, and every eligible file listed before it is strictly
smaller, i.e. ties go to the first listed maximum. -/
theorem select_fallback_largest (files : List FileDesc)
    (hne : files.filter isCandidate ≠ [])
    (hnokw : ∀ f ∈ files.filter isCandidate, ∀ kw ∈ priority_keywords,
      containsKw f kw = false) :
    ∃ w, selectFile files none = .ok w ∧
      w ∈ files.filter isCandidate ∧
      (∀ f ∈ files.filter isCandidate, f.fileSizeBytes ≤ w.fileSizeBytes) ∧
      ∃ pre post, files.filter isCandidate = pre ++ w :: post ∧
        ∀ f ∈ pre, f.fileSizeBytes < w.fileSizeBytes := by
  obtain ⟨c, cs, hcs⟩ := List.exists_cons_of_ne_nil hne
  rw [selectFile_eq none hne, applyPattern_none, hcs]
  have hnokw2 : ∀ f ∈ c :: cs, ∀ kw ∈ priority_keywords, containsKw f kw = false := by
    rw [← hcs]
    exact hnokw
  refine ⟨pyMax c cs, ?_, pyMax_mem c cs, pyMax_ge c cs, pyMax_first c cs⟩
  exact selectFrom_cons_of_kwPass_none (kwPass_eq_none hnokw2)

/-- C4 witness: two keyword-free candidates of equal maximal size plus a
smaller one; the first listed maximum is chosen. -/
theorem select_fallback_largest_witness :
    ∃ w, selectFile
        [⟨"alpha.csv".toList, 80000, []⟩,
         ⟨"beta.csv".toList, 80000, []⟩,
         ⟨"gamma.csv".toList, 60000, []⟩] none = .ok w ∧
      w ∈ ([⟨"alpha.csv".toList, 80000, []⟩, ⟨"beta.csv".toList, 80000, []⟩,
            ⟨"gamma.csv".toList, 60000, []⟩] : List FileDesc).filter isCandidate ∧
      (∀ f ∈ ([⟨"alpha.csv".toList, 80000, []⟩, ⟨"beta.csv".toList, 80000, []⟩,
               ⟨"gamma.csv".toList, 60000, []⟩] : List FileDesc).filter isCandidate,
        f.fileSizeBytes ≤ w.fileSizeBytes) ∧
      ∃ pre post,
        ([⟨"alpha.csv".toList, 80000, []⟩, ⟨"beta.csv".toList, 80000, []⟩,
          ⟨"gamma.csv".toList, 60000, []⟩] : List FileDesc).filter isCandidate
          = pre ++ w :: post ∧
        ∀ f ∈ pre, f.fileSizeBytes < w.fileSizeBytes :=
  select_fallback_largest
    [⟨"alpha.csv".toList, 80000, []⟩, ⟨"beta.csv".toList, 80000, []⟩,
     ⟨"gamma.csv".toList, 60000, []⟩]
    (by decide) (by decide)

/-- C5 counterexample: a listing response whose only file fails the
eligibility filter (a 500-byte `readme.txt`).  The load pipeline fails,
but with the no-candidate error (Python `FileNotFoundError`), not with
the project-not-found error (Python `ValueError`) that the claim
asserts. -/
theorem load_empty_filter_counterexample :
    loadSelect (ListingResponse.ok [⟨"readme.txt".toList, 500, []⟩]) none
        = .error .noCandidate ∧
      loadSelect (ListingResponse.ok [⟨"readme.txt".toList, 500, []⟩]) none
        ≠ .error .projectNotFound := by
  decide

/-- C5 (amended): a not-found listing response fails with the
project-not-found error, while a listing that is empty after the
eligibility filtering fails with the distinct no-candidate error. -/
theorem load_error_conditions :
    (∀ pat, loadSelect ListingResponse.notFound pat = .error .projectNotFound) ∧
    (∀ files pat, files.filter isCandidate = [] →
      loadSelect (ListingResponse.ok files) pat = .error .noCandidate) := by
  constructor
  · intro pat
    rfl
  · intro files pat h
    simp [loadSelect, selectFile, h]

/-- C5 witness: the amended statement applied to a not-found response
and to a listing whose single file fails the filter. -/
theorem load_error_conditions_witness :
    loadSelect ListingResponse.notFound none = .error .projectNotFound ∧
      loadSelect (ListingResponse.ok [⟨"notes.txt".toList, 12, []⟩]) none
        = .error .noCandidate :=
  ⟨load_error_conditions.1 none,
    load_error_conditions.2 [⟨"notes.txt".toList, 12, []⟩] none (by decide)⟩

/-! ### Helper lemmas about the reader -/

theorem pdReadCsvPath_ne_unsupported (fn : PyStr) (sep : Char) (c : FileContent) :
    pdReadCsvPath fn sep c ≠ .error .unsupportedFormat := by
  cases c with
  | text s => simp [pdReadCsvPath]
  | gzipText s =>
    unfold pdReadCsvPath
    split_ifs <;> simp
  | workbook t => simp [pdReadCsvPath]

theorem pdReadExcel_ne_unsupported (c : FileContent) :
    pdReadExcel c ≠ .error .unsupportedFormat := by
  cases c <;> simp [pdReadExcel]

theorem bool_ne_true {b : Bool} (h : b = false) : ¬ b = true := by
  rw [h]
  decide

theorem or_ne_true {a b : Bool} (ha : a = false) (hb : b = false) :
    ¬ (a || b) = true := by
  rw [ha, hb]
  decide

theorem or_eq_true_left {a : Bool} (b : Bool) (ha : a = true) : (a || b) = true := by
  rw [ha]
  exact Bool.true_or b

theorem or_eq_true_right (a : Bool) {b : Bool} (hb : b = true) : (a || b) = true := by
  rw [hb]
  exact Bool.or_true a

theorem readTail_ne_unsupported (fn name : PyStr) (c : FileContent) :
    readTail fn name c ≠ .error .unsupportedFormat := by
  unfold readTail
  split_ifs
  · exact pdReadCsvPath_ne_unsupported fn (Char.ofNat 9) c
  · exact pdReadCsvPath_ne_unsupported fn (Char.ofNat 44) c
  · exact pdReadExcel_ne_unsupported c
  · exact pdReadCsvPath_ne_unsupported fn (Char.ofNat 9) c

theorem suffix_eq_of_length {l1 l2 l : PyStr} (h1 : l1 <:+ l) (h2 : l2 <:+ l)
    (hl : l1.length = l2.length) : l1 = l2 := by
  obtain ⟨t1, ht1⟩ := h1
  obtain ⟨t2, ht2⟩ := h2
  have h := ht2.trans ht1.symm
  exact ((List.append_inj' h hl.symm).2).symm

/-! ### Claim theorems about the reader -/

/-- C6: TableReader totality — no input ever makes `_read_file` fail
with the unsupported-format error, and on a name whose lowercase form
ends in none of the recognized suffixes the file is handed to the
tab-separated parser, the permissive default fallback. -/
theorem read_file_total (fn : PyStr) (c : FileContent) :
    read_file fn c ≠ .error .unsupportedFormat ∧
      (pyEndsWith (pyLower fn) ".gz".toList = false →
       pyEndsWith (pyLower fn) ".txt".toList = false →
       pyEndsWith (pyLower fn) ".tsv".toList = false →
       pyEndsWith (pyLower fn) ".csv".toList = false →
       pyEndsWith (pyLower fn) ".xlsx".toList = false →
       pyEndsWith (pyLower fn) ".xls".toList = false →
       read_file fn c = pdReadCsvPath fn (Char.ofNat 9) c) := by
  constructor
  · unfold read_file
    by_cases hgz : pyEndsWith (pyLower fn) ".gz".toList = true
    · rw [if_pos hgz]
      cases c with
      | text s => simp [gzipRead]
      | workbook t => simp [gzipRead]
      | gzipText s =>
        simp only [gzipRead]
        split_ifs
        · simp
        · simp
        · exact readTail_ne_unsupported fn (pyDropRight (pyLower fn) 3)
            (FileContent.gzipText s)
    · rw [if_neg hgz]
      exact readTail_ne_unsupported fn (pyLower fn) c
  · intro h1 h2 h3 h4 h5 h6
    unfold read_file
    rw [if_neg (bool_ne_true h1)]
    unfold readTail
    rw [if_neg (or_ne_true h2 h3), if_neg (bool_ne_true h4), if_neg (or_ne_true h5 h6)]

/-- C6 witness: a file with the unrecognized suffix `.dat` holding plain
text is parsed by the tab-separated default, not rejected. -/
theorem read_file_total_witness :
    read_file "results.dat".toList (.text "a\tb\nc\td".toList)
        ≠ .error .unsupportedFormat ∧
      read_file "results.dat".toList (.text "a\tb\nc\td".toList)
        = pdReadCsvPath "results.dat".toList (Char.ofNat 9)
            (.text "a\tb\nc\td".toList) :=
  ⟨(read_file_total "results.dat".toList (.text "a\tb\nc\td".toList)).1,
    (read_file_total "results.dat".toList (.text "a\tb\nc\td".toList)).2
      (by decide) (by decide) (by decide) (by decide) (by decide) (by decide)⟩

/-- C7: Compression transparency — for any text content and any base
name with a tab-like suffix, reading the gzip-compressed file
`base ++ ".gz"` yields exactly the table obtained by reading the same
content from the uncompressed file `base`. -/
theorem read_compression_transparent (base s : PyStr)
    (h : pyEndsWith (pyLower base) ".txt".toList = true ∨
         pyEndsWith (pyLower base) ".tsv".toList = true) :
    read_file (base ++ ".gz".toList) (.gzipText s) = read_file base (.text s) := by
  have hlow : pyLower (base ++ ".gz".toList) = pyLower base ++ ".gz".toList := by
    unfold pyLower
    rw [List.map_append,
      show List.map Char.toLower ".gz".toList = ".gz".toList from by decide]
  have htail : "txt".toList <:+ pyLower base ∨ "tsv".toList <:+ pyLower base := by
    rcases h with h | h
    · exact Or.inl (List.IsSuffix.trans ⟨[Char.ofNat 46], by decide⟩
        (List.isSuffixOf_iff_suffix.mp h))
    · exact Or.inr (List.IsSuffix.trans ⟨[Char.ofNat 46], by decide⟩
        (List.isSuffixOf_iff_suffix.mp h))
  have hgz2 : ¬ pyEndsWith (pyLower base) ".gz".toList = true := by
    intro hgz
    have hsuf : ".gz".toList <:+ pyLower base := List.isSuffixOf_iff_suffix.mp hgz
    rcases htail with ht | ht
    · exact absurd (suffix_eq_of_length hsuf ht (by decide)) (by decide)
    · exact absurd (suffix_eq_of_length hsuf ht (by decide)) (by decide)
  have hstrip : pyDropRight (pyLower base ++ ".gz".toList) 3 = pyLower base := by
    unfold pyDropRight
    rw [List.length_append]
    show (pyLower base ++ ".gz".toList).take ((pyLower base).length + 3 - 3) = pyLower base
    rw [Nat.add_sub_cancel]
    exact List.take_left' rfl
  have hor : (pyEndsWith (pyLower base) ".txt".toList
      || pyEndsWith (pyLower base) ".tsv".toList) = true := by
    rcases h with h | h
    · exact or_eq_true_left _ h
    · exact or_eq_true_right _ h
  have hrhs : read_file base (.text s) = .ok (parseDelim (Char.ofNat 9) s) := by
    unfold read_file
    rw [if_neg hgz2]
    unfold readTail
    rw [if_pos hor]
    rfl
  rw [hrhs]
  unfold read_file
  rw [hlow]
  rw [if_pos (show pyEndsWith (pyLower base ++ ".gz".toList) ".gz".toList = true from
    List.isSuffixOf_iff_suffix.mpr (List.suffix_append _ _))]
  simp only [gzipRead]
  rw [hstrip, if_pos hor]

/-- C7 witness: compressed and uncompressed reads of the same
tab-separated content agree on a concrete `.tsv` name. -/
theorem read_compression_transparent_witness :
    (pyEndsWith (pyLower "table.tsv".toList) ".txt".toList = true ∨
       pyEndsWith (pyLower "table.tsv".toList) ".tsv".toList = true) ∧
      read_file ("table.tsv".toList ++ ".gz".toList) (.gzipText "x\ty\n1\t2".toList)
        = read_file "table.tsv".toList (.text "x\ty\n1\t2".toList) :=
  ⟨Or.inr (by decide),
    read_compression_transparent "table.tsv".toList "x\ty\n1\t2".toList
      (Or.inr (by decide))⟩

/-! ### Claim theorems about the cache, the downloader and the catalog -/

/-- C8: Cache idempotence — with caching enabled, two successive
`_download_file` calls for the same descriptor perform at most one
network transfer in total, the second call performs none (it is served
from the cache entry stored under the descriptor's file name), and the
content found at the returned path is byte-identical across the two
calls. -/
theorem download_cache_idempotent (remote : PyStr → List Nat)
    (cache : List (PyStr × List Nat)) (url filename : PyStr) :
    (download_file remote true
        (download_file remote true cache url filename).cache url filename).transfers = 0 ∧
      (download_file remote true cache url filename).transfers
        + (download_file remote true
            (download_file remote true cache url filename).cache url filename).transfers ≤ 1 ∧
      (download_file remote true
          (download_file remote true cache url filename).cache url filename).content
        = (download_file remote true cache url filename).content := by
  by_cases hhit : (cache.lookup filename).isSome = true
  · have h1 : download_file remote true cache url filename =
        { cache := cache, content := (cache.lookup filename).getD [], transfers := 0 } := by
      unfold download_file
      rw [if_pos (by simp [hhit])]
    simp only [h1]
    simp
  · have h1 : download_file remote true cache url filename =
        { cache := (filename, remote url) :: cache, content := remote url,
          transfers := 1 } := by
      unfold download_file
      rw [if_neg (by simp [hhit]), if_pos rfl]
    have h2 : download_file remote true ((filename, remote url) :: cache) url filename =
        { cache := (filename, remote url) :: cache, content := remote url,
          transfers := 0 } := by
      unfold download_file
      rw [if_pos (by simp)]
      simp
    simp only [h1]
    simp only [h2]
    simp

/-- C9 counterexample: when the cache root does not exist before the
call (`none`), `clear_cache` leaves it absent — afterwards the cache
root does not exist, contradicting the claim that it always exists and
is empty after the call. -/
theorem clear_cache_counterexample :
    clear_cache none = none ∧ (clear_cache none).isSome = false := by
  decide

/-- C9 (amended): if the cache root exists, `clear_cache` deletes all
cached entries and recreates an empty root; if the root does not exist,
the call does nothing and the root remains absent (the `mkdir` sits
inside the existence check). -/
theorem clear_cache_spec :
    (∀ entries, clear_cache (some entries) = some []) ∧ clear_cache none = none :=
  ⟨fun _ => rfl, rfl⟩

/-- C10: `get_info` on a present identifier returns the first matching
catalog row with exactly its non-missing cells: a pair `(k, v)` is in
the returned mapping precisely when column `k` holds the present value
`v` in the row — columns holding a missing value are omitted rather
than mapped to a null. -/
theorem get_info_dropna (metadata : List Row) (identifier : PyStr) (r : Row)
    (hfind : metadata.find?
        (fun row => decide (rowGet row "Identifier".toList = some identifier)) = some r) :
    get_info metadata identifier = .ok (dropna r) ∧
      ∀ k v, ((k, v) ∈ dropna r ↔ (k, some v) ∈ r) := by
  constructor
  · unfold get_info
    rw [hfind]
  · intro k v
    unfold dropna
    rw [List.mem_filterMap]
    constructor
    · rintro ⟨⟨k1, ov⟩, hmem, heq⟩
      cases ov with
      | none => simp at heq
      | some v1 =>
        simp only [Option.map_some'] at heq
        have hk : k1 = k := congrArg Prod.fst (Option.some.inj heq)
        have hv : v1 = v := congrArg Prod.snd (Option.some.inj heq)
        rw [← hk, ← hv]
        exact hmem
    · intro hmem
      exact ⟨(k, some v), hmem, rfl⟩

/-- C10 witness: a catalog row with a missing `Title` cell; the mapping
contains the present columns and omits the missing one. -/
theorem get_info_dropna_witness :
    get_info
        [[("Identifier".toList, some "PXD000001".toList),
          ("Title".toList, none),
          ("Organism".toList, some "Homo sapiens".toList)]]
        "PXD000001".toList
      = .ok (dropna
          [("Identifier".toList, some "PXD000001".toList),
           ("Title".toList, none),
           ("Organism".toList, some "Homo sapiens".toList)]) ∧
      ∀ k v, ((k, v) ∈ dropna
          [("Identifier".toList, some "PXD000001".toList),
           ("Title".toList, none),
           ("Organism".toList, some "Homo sapiens".toList)] ↔
        (k, some v) ∈
          [("Identifier".toList, some "PXD000001".toList),
           ("Title".toList, none),
           ("Organism".toList, some "Homo sapiens".toList)]) :=
  get_info_dropna
    [[("Identifier".toList, some "PXD000001".toList),
      ("Title".toList, none),
      ("Organism".toList, some "Homo sapiens".toList)]]
    "PXD000001".toList
    [("Identifier".toList, some "PXD000001".toList),
     ("Title".toList, none),
     ("Organism".toList, some "Homo sapiens".toList)]
    (by decide)

end ProteomicsExplorer
